import Mathlib

/-!
Verification of the Delta-Prox DOE optical model
(`dprox/contrib/optic/doe_model.py`) against its specification.

Shallow-embedding conventions:

* Tensors of shape `(1, 3, H, W)` are modelled as functions
  `Fin 3 → Fin H → Fin W → α`; purely spatial `(H, W)` (or `(1, 1, H, W)`)
  tensors as `Fin H → Fin W → α`.
* Angles.  Every phase the source manipulates is `π` times a rational number
  whenever the configuration (wavelengths, refractive indices, coordinates,
  sensor distance) is rational: wave numbers are `2π/λ`, the Fresnel phase is
  `-k·r²/(2d)`, and `phase_to_height_map` divides a phase by `k`.  The
  embedding therefore stores the *quotient by π* of each phase as an exact
  rational.  Under this convention the source's `x % (2π)` becomes `qmod2`
  (reduction into `[0, 2)`), adding `2π·n` to a phase becomes adding `2·n`
  to its representation, and `torch.exp(1j * phi)` becomes `cexp_pi`
  applied to the representation.
* The learnable parameters (`height_map_sqrt`, the Zernike coefficients) are
  real-valued, since the optimizer may drive them to arbitrary real values.
* Fallible code is modelled with `Option`: `build_baseline_profile` hits an
  unbound local variable (a `TODO` branch) when a Zernike volume is present,
  which the embedding renders as `none`.
* `FresnelPropagator`, `get_coordinate`, `area_downsampling` and
  `log_descent` are imported by the source from modules that are not part of
  this repository snapshot; where a claim needs them they are modelled from
  the spec and marked as such.
-/

namespace Dprox

/-- Reduction of a phase (stored as its quotient by `π`) into `[0, 2)`:
this is the embedding of the source's `phi % (2 * torch.pi)`, whose result
for torch/Python lies in `[0, 2π)`. -/
def qmod2 (q : ℚ) : ℚ := q - 2 * ⌊q / 2⌋

/-- Complex exponential of a phase given by its quotient by `π`:
`cexp_pi x` embeds the source's `torch.exp(1j * phi)` for `phi = π * x`. -/
noncomputable def cexp_pi (x : ℝ) : ℂ := Complex.exp (Complex.I * (Real.pi * x))

/-- The read-only optical configuration shared by `HeightMap`'s methods:
wavelength triple, refractive-index triple, the coordinate grids `xx`/`yy`
and the sensor distance (`doe_model.py`, `HeightMap.__init__`). -/
structure OpticCfg (H W : ℕ) where
  wave_lengths : Fin 3 → ℚ
  refractive_idcs : Fin 3 → ℚ
  xx : Fin H → Fin W → ℚ
  yy : Fin H → Fin W → ℚ
  sensor_distance : ℚ

namespace OpticCfg

variable {H W : ℕ}

/-- Embedding of `delta_N = refractive_idcs - 1` (`HeightMap.__init__`). -/
def delta_N (cfg : OpticCfg H W) (c : Fin 3) : ℚ := cfg.refractive_idcs c - 1

/-- Embedding of the wave numbers `wave_nos = 2π / wave_lengths`
(`HeightMap.__init__`), stored as their quotient by `π`, i.e. `2 / λ`. -/
def wave_nos_pi (cfg : OpticCfg H W) (c : Fin 3) : ℚ := 2 / cfg.wave_lengths c

/-- Embedding of `HeightMap.phase_to_height_map`: the phase is reduced
modulo `2π` (here: `qmod2` on the `π`-quotient), then divided by
`k = 2π/λ` and by `delta_n`; `height = φ / k / Δn`. -/
def phase_to_height_map (cfg : OpticCfg H W) (phi : Fin H → Fin W → ℚ)
    (idx : Fin 3) : Fin H → Fin W → ℚ :=
  fun i j => qmod2 (phi i j) / cfg.wave_nos_pi idx / cfg.delta_N idx

/-- The ideal Fresnel-lens phase `-k · r² / (2 · sensor_distance)` computed
in `HeightMap._fresnel_phase_init` (and again in `build_baseline_profile`),
before the reduction modulo `2π`; stored as its quotient by `π`. -/
def fresnel_phase_pi (cfg : OpticCfg H W) (idx : Fin 3) :
    Fin H → Fin W → ℚ :=
  fun i j =>
    -(cfg.wave_nos_pi idx * ((cfg.xx i j ^ 2 + cfg.yy i j ^ 2) /
      (2 * cfg.sensor_distance)))

/-- The Fresnel phase after the source's `fresnel_phase % (2π)` step. -/
def fresnel_phase_mod (cfg : OpticCfg H W) (idx : Fin 3) :
    Fin H → Fin W → ℚ :=
  fun i j => qmod2 (cfg.fresnel_phase_pi idx i j)

/-- The height map produced inside `HeightMap._fresnel_phase_init`:
the reduced Fresnel phase converted via `phase_to_height_map`. -/
def fresnel_init_height (cfg : OpticCfg H W) (idx : Fin 3) :
    Fin H → Fin W → ℚ :=
  cfg.phase_to_height_map (cfg.fresnel_phase_mod idx) idx

/-- Embedding of `HeightMap._fresnel_phase_init`: the square root of the
Fresnel-derived height map (`height_map ** 0.5`). -/
noncomputable def fresnel_phase_init (cfg : OpticCfg H W) (idx : Fin 3) :
    Fin H → Fin W → ℝ :=
  fun i j => Real.sqrt (cfg.fresnel_init_height idx i j)

end OpticCfg

/-- The learnable state of a `HeightMap`: in free-form mode the parameter
`height_map_sqrt`; in Zernike mode the basis volume together with the list
of scalar coefficient parameters (`nn.ParameterList`). -/
inductive HeightMapParams (H W : ℕ) where
  | freeForm (height_map_sqrt : Fin H → Fin W → ℝ)
  | zernike (volume : List (Fin H → Fin W → ℚ)) (coeffs : List ℝ)

/-- Embedding of the `HeightMap` module: the optical configuration captured
at construction plus the mode-dependent learnable parameters. -/
structure HeightMap (H W : ℕ) extends OpticCfg H W where
  params : HeightMapParams H W

/-- Embedding of `HeightMap.__init__`: with no Zernike volume the parameter
is `height_map_sqrt = self._fresnel_phase_init(1)`; with a Zernike volume of
`K` basis maps, `K` scalar coefficients are created, coefficient `k` taking
`initial_zernike_coefs.get(k, 0.0)`. -/
noncomputable def HeightMap.init {H W : ℕ}
    (zernike_volume : Option (List (Fin H → Fin W → ℚ)))
    (initial_zernike_coefs : List (ℕ × ℚ))
    (wave_lengths refractive_idcs : Fin 3 → ℚ)
    (xx yy : Fin H → Fin W → ℚ) (sensor_distance : ℚ) : HeightMap H W :=
  ⟨⟨wave_lengths, refractive_idcs, xx, yy, sensor_distance⟩,
    match zernike_volume with
    | none =>
        .freeForm
          (OpticCfg.fresnel_phase_init
            ⟨wave_lengths, refractive_idcs, xx, yy, sensor_distance⟩ 1)
    | some vol =>
        .zernike vol
          ((List.range vol.length).map fun k =>
            (((initial_zernike_coefs.lookup k).getD 0 : ℚ) : ℝ))⟩

/-- Embedding of `height_map = torch.square(self.height_map_sqrt)` in
`HeightMap.get_phase_profile`: the derived height field is the elementwise
square of the stored parameter. -/
def square_height {H W : ℕ} (hs : Fin H → Fin W → ℝ) :
    Fin H → Fin W → ℝ :=
  fun i j => hs i j ^ 2

/-- The phase (quotient by `π`) computed by `HeightMap.get_phase_profile`.
In free-form mode the source *overwrites* its `height_map` argument with
`torch.square(self.height_map_sqrt)`, so the argument is unused; the phase
is `wave_nos * delta_N * height_map`.  In Zernike mode the phase is
`2π · Σ_k coeff_k · volume_k`, broadcast over the channel dimension. -/
noncomputable def HeightMap.phase_profile_pi {H W : ℕ} (m : HeightMap H W)
    (height_map : Option (Fin H → Fin W → ℝ)) :
    Fin 3 → Fin H → Fin W → ℝ :=
  match m.params with
  | .freeForm hs => fun c i j =>
      ((m.toOpticCfg.wave_nos_pi c * m.toOpticCfg.delta_N c : ℚ) : ℝ) *
        square_height hs i j
  | .zernike vol coeffs => fun _ i j =>
      2 * ((coeffs.zip vol).map fun cv => cv.1 * ((cv.2 i j : ℚ) : ℝ)).sum

/-- Embedding of `HeightMap.get_phase_profile`: `torch.exp(1j * phi)`. -/
noncomputable def HeightMap.get_phase_profile {H W : ℕ} (m : HeightMap H W)
    (height_map : Option (Fin H → Fin W → ℝ)) :
    Fin 3 → Fin H → Fin W → ℂ :=
  fun c i j => cexp_pi (m.phase_profile_pi height_map c i j)

/-- The behaviour claim C1 ascribes to `get_phase_profile` when an external
height map is supplied in free-form mode, written from the spec's words
(the supplied map overrides the internal parameter):
`exp(i * wave_nos * delta_N * height_map)`. -/
noncomputable def HeightMap.claimed_phase_profile {H W : ℕ}
    (m : HeightMap H W) (height_map : Fin H → Fin W → ℝ) :
    Fin 3 → Fin H → Fin W → ℂ :=
  fun c i j =>
    cexp_pi (((m.toOpticCfg.wave_nos_pi c * m.toOpticCfg.delta_N c : ℚ) : ℝ) *
      height_map i j)

/-- Flattened list of all entries of a rational `(H, W)` tensor. -/
def entries {H W : ℕ} (t : Fin H → Fin W → ℚ) : List ℚ :=
  ((List.finRange H).map fun i => (List.finRange W).map (t i)).flatten

/-- Embedding of `xx.max()` on a rational tensor (`torch.Tensor.max`).
On the empty tensor (impossible for a torch buffer) the value defaults
to `0`. -/
def maxEntry {H W : ℕ} (t : Fin H → Fin W → ℚ) : ℚ :=
  (entries t).max?.getD 0

/-- Embedding of `RGBCollimator._get_circular_aperture`:
`max_val = xx.max(); r = sqrt(xx² + yy²); aperture = (r < max_val).float()`.
Note the comparison threshold in the source is the maximum `xx` coordinate. -/
noncomputable def circular_aperture {H W : ℕ}
    (xx yy : Fin H → Fin W → ℚ) : Fin H → Fin W → ℝ :=
  fun i j =>
    if Real.sqrt (((xx i j : ℚ) : ℝ) ^ 2 + ((yy i j : ℚ) : ℝ) ^ 2) <
        ((maxEntry xx : ℚ) : ℝ) then 1 else 0

/-- The aperture claim C7 describes, written from the spec's words: `1` at
every sample whose radius is strictly below the maximum grid radius, else
`0`.  The maximum grid radius (the largest `sqrt(x² + y²)` over all samples)
is written as the square root of the largest `x² + y²`, which is the same
number since `sqrt` is monotone. -/
noncomputable def claimed_aperture {H W : ℕ}
    (xx yy : Fin H → Fin W → ℚ) : Fin H → Fin W → ℝ :=
  fun i j =>
    if Real.sqrt (((xx i j : ℚ) : ℝ) ^ 2 + ((yy i j : ℚ) : ℝ) ^ 2) <
        Real.sqrt ((maxEntry (fun i j => xx i j ^ 2 + yy i j ^ 2) : ℚ) : ℝ)
    then 1 else 0

/-- Wave resolution of an `RGBCollimator` whose sensor patch is `(P+1)`
pixels wide with an area-downsampling factor of `(f+1)`: the simulated
wavefront has `(P+1)*(f+1)` samples per side.  Sizes are kept in this
factored form because `area_downsampling` needs the wave resolution to be
a multiple of the patch size. -/
def waveRes (P f : ℕ) : ℕ := (P + 1) * (f + 1)

/-- Modelled from the spec: `area_downsampling` (imported by the source
from a module that is missing from this snapshot) area-downsamples the
`(waveRes, waveRes)` intensity tensor to the `(P+1, P+1)` sensor patch by
averaging the `(f+1) × (f+1)` sample groups of each output pixel; the
bijection `finProdFinEquiv` assigns every wavefront sample to its output
pixel. -/
noncomputable def area_downsampling (P f : ℕ)
    (t : Fin (waveRes P f) → Fin (waveRes P f) → ℝ) :
    Fin (P + 1) → Fin (P + 1) → ℝ :=
  fun i j =>
    (∑ di : Fin (f + 1), ∑ dj : Fin (f + 1),
      t (finProdFinEquiv (i, di)) (finProdFinEquiv (j, dj))) /
      ((f + 1) * (f + 1))

/-- Embedding of the `RGBCollimator` module: the configuration captured by
`__init__` plus the buffers and submodules `_init_setup` creates.  The
Fresnel propagator is kept as a field holding an arbitrary field-to-field
map (modelled from the spec, since `FresnelPropagator` is missing from this
snapshot; no claim depends on its internals). -/
structure RGBCollimator (P f : ℕ) where
  zernike_volume : Option (List (Fin (waveRes P f) → Fin (waveRes P f) → ℚ))
  initial_zernike_coefs : List (ℕ × ℚ)
  sensor_distance : ℚ
  refractive_idcs : Fin 3 → ℚ
  wave_lengths : Fin 3 → ℚ
  sample_interval : ℚ
  xx : Fin (waveRes P f) → Fin (waveRes P f) → ℚ
  yy : Fin (waveRes P f) → Fin (waveRes P f) → ℚ
  input_field : Fin 3 → Fin (waveRes P f) → Fin (waveRes P f) → ℂ
  aperture : Fin (waveRes P f) → Fin (waveRes P f) → ℝ
  height_map : HeightMap (waveRes P f) (waveRes P f)
  propagator : (Fin 3 → Fin (waveRes P f) → Fin (waveRes P f) → ℂ) →
    (Fin 3 → Fin (waveRes P f) → Fin (waveRes P f) → ℂ)

/-- Embedding of `RGBCollimator.__init__` / `_init_setup`: stores the
configuration, sets `input_field` to ones, computes the circular aperture
from the coordinate grids, and constructs the `HeightMap`.  The coordinate
grids (produced by the missing `get_coordinate`) and the propagator are
taken as inputs. -/
noncomputable def RGBCollimator.build (P f : ℕ)
    (zernike_volume :
      Option (List (Fin (waveRes P f) → Fin (waveRes P f) → ℚ)))
    (initial_zernike_coefs : List (ℕ × ℚ))
    (sensor_distance : ℚ)
    (refractive_idcs wave_lengths : Fin 3 → ℚ)
    (sample_interval : ℚ)
    (xx yy : Fin (waveRes P f) → Fin (waveRes P f) → ℚ)
    (propagator : (Fin 3 → Fin (waveRes P f) → Fin (waveRes P f) → ℂ) →
      (Fin 3 → Fin (waveRes P f) → Fin (waveRes P f) → ℂ)) :
    RGBCollimator P f :=
  ⟨zernike_volume, initial_zernike_coefs, sensor_distance, refractive_idcs,
    wave_lengths, sample_interval, xx, yy,
    fun _ _ _ => 1,
    circular_aperture xx yy,
    HeightMap.init zernike_volume initial_zernike_coefs wave_lengths
      refractive_idcs xx yy sensor_distance,
    propagator⟩

/-- The point-spread function of `RGBCollimator.get_psf` *before* the final
normalization: the phase profile (the height map's, when none is passed) is
multiplied into the input field, masked by the aperture, propagated, and
the squared magnitude is area-downsampled to the sensor patch. -/
noncomputable def RGBCollimator.psf_prenorm {P f : ℕ} (m : RGBCollimator P f)
    (phase_profile :
      Option (Fin 3 → Fin (waveRes P f) → Fin (waveRes P f) → ℂ)) :
    Fin 3 → Fin (P + 1) → Fin (P + 1) → ℝ :=
  let pp := match phase_profile with
    | none => m.height_map.get_phase_profile none
    | some pp => pp
  let field := fun c i j => pp c i j * m.input_field c i j
  let field2 := fun c i j => (m.aperture i j : ℂ) * field c i j
  let field3 := m.propagator field2
  fun c => area_downsampling P f fun i j => Complex.abs (field3 c i j) ^ 2

/-- The scalar `psfs.sum()` of `RGBCollimator.get_psf`: the sum of the
pre-normalization PSF over the whole `(1, 3, P+1, P+1)` tensor. -/
noncomputable def RGBCollimator.psf_sum {P f : ℕ} (m : RGBCollimator P f)
    (phase_profile :
      Option (Fin 3 → Fin (waveRes P f) → Fin (waveRes P f) → ℂ)) : ℝ :=
  ∑ c : Fin 3, ∑ i : Fin (P + 1), ∑ j : Fin (P + 1),
    m.psf_prenorm phase_profile c i j

/-- Embedding of `RGBCollimator.get_psf`: the pre-normalization PSF divided
by the single scalar `psfs.sum()` (`psfs = psfs / psfs.sum()`). -/
noncomputable def RGBCollimator.get_psf {P f : ℕ} (m : RGBCollimator P f)
    (phase_profile :
      Option (Fin 3 → Fin (waveRes P f) → Fin (waveRes P f) → ℂ)) :
    Fin 3 → Fin (P + 1) → Fin (P + 1) → ℝ :=
  fun c i j => m.psf_prenorm phase_profile c i j / m.psf_sum phase_profile

/-- Embedding of `build_baseline_profile` (`doe_model.py`).  With no
Zernike volume it computes the ideal Fresnel phase for the mid wavelength,
reduces it modulo `2π`, converts it with `phase_to_height_map`, and feeds
the result to `get_phase_profile`.  With a Zernike volume the `if` branch
is `pass  # TODO`, so the local variable `height_map` is unbound at the
final call — a Python `UnboundLocalError`, modelled as `none`. -/
noncomputable def build_baseline_profile {P f : ℕ} (m : RGBCollimator P f) :
    Option (Fin 3 → Fin (waveRes P f) → Fin (waveRes P f) → ℂ) :=
  let height_map :
      Option (Fin (waveRes P f) → Fin (waveRes P f) → ℝ) :=
    match m.zernike_volume with
    | none =>
        let fresnel_phase := fun i j =>
          -((2 / m.wave_lengths 1 : ℚ) *
            ((m.xx i j ^ 2 + m.yy i j ^ 2) / (2 * m.sensor_distance)))
        let fresnel_phase2 := fun i j => qmod2 (fresnel_phase i j)
        some fun i j =>
          ((m.height_map.toOpticCfg.phase_to_height_map fresnel_phase2 1 i j :
            ℚ) : ℝ)
    | some _ => none
  match height_map with
  | some h => some (m.height_map.get_phase_profile (some h))
  | none => none

/-- Modelled from the spec: `log_descent` (§4.6; imported by
`e2e_optics.py` from a module missing from this snapshot) produces the
noise-level schedule by logarithmic interpolation between the endpoint
noise levels over `max_iter` points, and scales each noise level into an
ADMM penalty through the fixed relation `rho = lam * sigma ^ 2`. -/
noncomputable def log_descent (startv endv : ℝ) (max_iter : ℕ) (lam : ℝ) :
    List ℝ × List ℝ :=
  let sigmas := (List.range max_iter).map fun (i : ℕ) =>
    Real.exp (Real.log startv +
      (i : ℝ) * ((Real.log endv - Real.log startv) / ((max_iter : ℝ) - 1)))
  (sigmas.map fun s => lam * s ^ 2, sigmas)

/-! Concrete instances used as inputs by counterexamples and witnesses. -/

/-- Concrete 2-by-2 x-coordinate grid: column 0 has `x = 0`, column 1 has
`x = 1`. -/
def xg : Fin 2 → Fin 2 → ℚ := fun _ j => if j = 0 then 0 else 1

/-- Concrete 2-by-2 y-coordinate grid: row 0 has `y = 0`, row 1 has
`y = 1`. -/
def yg : Fin 2 → Fin 2 → ℚ := fun i _ => if i = 0 then 0 else 1

/-- Concrete free-form `HeightMap` on a 1-by-1 grid: unit wavelengths,
refractive indices `3/2`, zero coordinates, unit sensor distance and the
parameter `height_map_sqrt = 0`. -/
def exHeightMap : HeightMap 1 1 :=
  ⟨⟨fun _ => 1, fun _ => 3 / 2, fun _ _ => 0, fun _ _ => 0, 1⟩,
    .freeForm fun _ _ => 0⟩

/-- Concrete externally-supplied height map, constantly `1`. -/
def exHeightOne : Fin 1 → Fin 1 → ℝ := fun _ _ => 1

/-- Concrete all-ones phase profile on the `waveRes 0 0 = 1` grid. -/
def onesProfile : Fin 3 → Fin (waveRes 0 0) → Fin (waveRes 0 0) → ℂ :=
  fun _ _ _ => 1

/-- Concrete `RGBCollimator` with a 1-by-1 wavefront, all-ones aperture and
identity propagator. -/
def exCollimator : RGBCollimator 0 0 :=
  ⟨none, [], 1, fun _ => 3 / 2, fun _ => 1, 1, fun _ _ => 0, fun _ _ => 0,
    fun _ _ _ => 1, fun _ _ => 1, exHeightMap, id⟩

/-- Concrete one-element Zernike volume on a 1-by-1 grid. -/
def vol1 : List (Fin (waveRes 0 0) → Fin (waveRes 0 0) → ℚ) :=
  [fun _ _ => 1]

/-- Concrete two-element Zernike volume on a 1-by-1 grid. -/
def vol2 : List (Fin 1 → Fin 1 → ℚ) := [fun _ _ => 1, fun _ _ => 2]

/-- Concrete `RGBCollimator` built with a Zernike volume. -/
noncomputable def exZernikeCollimator : RGBCollimator 0 0 :=
  RGBCollimator.build 0 0 (some vol1) [] 1 (fun _ => 3 / 2) (fun _ => 1) 1
    (fun _ _ => 0) (fun _ _ => 0) id

/-- Constant-1 wavelength triple. -/
def wl1 : Fin 3 → ℚ := fun _ => 1

/-- Constant-`3/2` refractive-index triple. -/
def refr32 : Fin 3 → ℚ := fun _ => 3 / 2

/-- Zero coordinate grid on the 1-by-1 wavefront. -/
def zeroGrid1 : Fin (waveRes 0 0) → Fin (waveRes 0 0) → ℚ := fun _ _ => 0

/-! Helper lemmas. -/

theorem qmod2_nonneg (q : ℚ) : 0 ≤ qmod2 q := by
  have h := Int.floor_le (q / 2)
  unfold qmod2
  linarith

theorem qmod2_lt_two (q : ℚ) : qmod2 q < 2 := by
  have h := Int.lt_floor_add_one (q / 2)
  unfold qmod2
  linarith

theorem qmod2_add_two_mul_int (q : ℚ) (n : ℤ) :
    qmod2 (q + 2 * n) = qmod2 q := by
  unfold qmod2
  rw [show (q + 2 * n) / 2 = q / 2 + n by ring, Int.floor_add_int]
  push_cast
  ring

theorem cexp_pi_add_two_int (x : ℝ) (n : ℤ) :
    cexp_pi (x + 2 * n) = cexp_pi x := by
  unfold cexp_pi
  rw [show Complex.I * ((Real.pi : ℂ) * ((x + 2 * (n : ℝ) : ℝ) : ℂ)) =
      Complex.I * ((Real.pi : ℂ) * ((x : ℝ) : ℂ)) +
        (n : ℂ) * (2 * (Real.pi : ℂ) * Complex.I) by push_cast; ring]
  rw [Complex.exp_add, Complex.exp_int_mul_two_pi_mul_I, mul_one]

theorem cexp_pi_qmod2 (q : ℚ) :
    cexp_pi ((qmod2 q : ℚ) : ℝ) = cexp_pi ((q : ℚ) : ℝ) := by
  have h : ((qmod2 q : ℚ) : ℝ) = ((q : ℚ) : ℝ) + 2 * ((-⌊q / 2⌋ : ℤ) : ℝ) := by
    unfold qmod2
    push_cast
    ring
  rw [h, cexp_pi_add_two_int]

theorem fresnel_init_height_nonneg {H W : ℕ} (cfg : OpticCfg H W)
    (idx : Fin 3) (hwl : 0 < cfg.wave_lengths idx)
    (hn : 1 < cfg.refractive_idcs idx) (i : Fin H) (j : Fin W) :
    0 ≤ cfg.fresnel_init_height idx i j := by
  unfold OpticCfg.fresnel_init_height OpticCfg.phase_to_height_map
  apply div_nonneg
  · apply div_nonneg (qmod2_nonneg _)
    unfold OpticCfg.wave_nos_pi
    positivity
  · unfold OpticCfg.delta_N
    linarith

/-! Claim theorems. -/

/-- C4: `phase_to_height_map` is invariant under adding full phase cycles:
adding `2π·n` to the phase (that is, adding `2·n` to its quotient by `π`)
does not change the resulting height map, for every phase tensor, integer
`n` and wavelength index, because the phase is reduced modulo `2π` before
the division by `k·delta_n`. -/
theorem C4_phase_wrap_invariant {H W : ℕ} (cfg : OpticCfg H W)
    (phi : Fin H → Fin W → ℚ) (n : ℤ) (idx : Fin 3) :
    cfg.phase_to_height_map (fun i j => phi i j + 2 * n) idx =
      cfg.phase_to_height_map phi idx := by
  funext i j
  unfold OpticCfg.phase_to_height_map
  rw [qmod2_add_two_mul_int]

/-- C6: in free-form mode the derived height field used by
`get_phase_profile` — the elementwise square `square_height` of the stored
`height_map_sqrt` parameter — is pointwise non-negative for every possible
value of the parameter. -/
theorem C6_height_nonneg {H W : ℕ} (hs : Fin H → Fin W → ℝ) (i : Fin H)
    (j : Fin W) : 0 ≤ square_height hs i j :=
  sq_nonneg (hs i j)

/-- C9: when a Zernike basis of `K` maps is supplied, `HeightMap.init`
creates exactly `K` scalar coefficients, and every coefficient whose index
is absent from `initial_zernike_coefs` is initialized to `0.0`. -/
theorem C9_zernike_init {H W : ℕ} (vol : List (Fin H → Fin W → ℚ))
    (coefs : List (ℕ × ℚ)) (wl refr : Fin 3 → ℚ)
    (xx yy : Fin H → Fin W → ℚ) (d : ℚ) (k : ℕ)
    (hmiss : coefs.lookup k = none) :
    ∃ cs, (HeightMap.init (some vol) coefs wl refr xx yy d).params =
        HeightMapParams.zernike vol cs ∧
      cs.length = vol.length ∧
      ∀ hk : k < cs.length, cs[k] = 0 := by
  refine ⟨_, rfl, by simp [HeightMap.init], ?_⟩
  intro hk
  simp [HeightMap.init] at hk ⊢
  simp [List.getElem_map, List.getElem_range, hmiss]

/-- C10: calling `build_baseline_profile` on an `RGBCollimator` whose
`zernike_volume` is not `None` hits the un-implemented branch, leaving the
local `height_map` unbound at its use (an `UnboundLocalError`, modelled as
`none`), instead of returning a baseline phase profile. -/
theorem C10_zernike_baseline_unbound (P f : ℕ) (m : RGBCollimator P f)
    (vol : List (Fin (waveRes P f) → Fin (waveRes P f) → ℚ))
    (hz : m.zernike_volume = some vol) :
    build_baseline_profile m = none := by
  unfold build_baseline_profile
  rw [hz]

/-- Witness for C9 at a concrete input: a two-map Zernike volume with the
initial coefficients `{0 ↦ 5}`; index 1 is absent and initialized to 0. -/
theorem C9_zernike_init_witness :
    ([((0 : ℕ), (5 : ℚ))].lookup 1 = none) ∧
      ∃ cs, (HeightMap.init (some vol2) [(0, 5)] wl1 refr32
            (fun _ _ => 0) (fun _ _ => 0) 1).params =
          HeightMapParams.zernike vol2 cs ∧
        cs.length = vol2.length ∧
        ∀ hk : 1 < cs.length, cs[1] = 0 :=
  ⟨by decide,
    C9_zernike_init vol2 [(0, 5)] wl1 refr32 (fun _ _ => 0) (fun _ _ => 0) 1 1
      (by decide)⟩

/-- Witness for C10 at a concrete input: the concrete Zernike-mode
collimator; `build_baseline_profile` returns `none`. -/
theorem C10_zernike_baseline_unbound_witness :
    exZernikeCollimator.zernike_volume = some vol1 ∧
      build_baseline_profile exZernikeCollimator = none :=
  ⟨rfl, C10_zernike_baseline_unbound 0 0 exZernikeCollimator vol1 rfl⟩

theorem qmod2_eq_self (q : ℚ) (h0 : 0 ≤ q) (h2 : q < 2) : qmod2 q = q := by
  unfold qmod2
  have hfloor : ⌊q / 2⌋ = 0 := by
    rw [Int.floor_eq_zero_iff]
    constructor
    · positivity
    · linarith
  rw [hfloor]
  push_cast
  ring

theorem qmod2_idem (q : ℚ) : qmod2 (qmod2 q) = qmod2 q :=
  qmod2_eq_self _ (qmod2_nonneg q) (qmod2_lt_two q)

theorem wave_mul_height {H W : ℕ} (cfg : OpticCfg H W) (idx : Fin 3)
    (hwl : cfg.wave_lengths idx ≠ 0) (hn : cfg.delta_N idx ≠ 0)
    (phi : Fin H → Fin W → ℚ) (i : Fin H) (j : Fin W) :
    cfg.wave_nos_pi idx * cfg.delta_N idx *
        cfg.phase_to_height_map phi idx i j =
      qmod2 (phi i j) := by
  unfold OpticCfg.phase_to_height_map OpticCfg.wave_nos_pi
  field_simp
  ring

theorem phase_profile_pi_freeForm {H W : ℕ} (m : HeightMap H W)
    (hs : Fin H → Fin W → ℝ) (hp : m.params = HeightMapParams.freeForm hs)
    (hm : Option (Fin H → Fin W → ℝ)) (c : Fin 3) (i : Fin H) (j : Fin W) :
    m.phase_profile_pi hm c i j =
      ((m.toOpticCfg.wave_nos_pi c * m.toOpticCfg.delta_N c : ℚ) : ℝ) *
        square_height hs i j := by
  unfold HeightMap.phase_profile_pi
  rw [hp]

/-- C1: at this concrete free-form instance the source's
`get_phase_profile` ignores the supplied height map — it returns
`exp(i·0) = 1` computed from the internal parameter, while the
documented/claimed result `exp(i·wave_nos·delta_N·height_map)` equals
`exp(iπ) = -1`. -/
theorem C1_override_ignored :
    exHeightMap.get_phase_profile (some exHeightOne) 0 0 0 ≠
      exHeightMap.claimed_phase_profile exHeightOne 0 0 0 := by
  have hcode : exHeightMap.get_phase_profile (some exHeightOne) 0 0 0 = 1 := by
    unfold HeightMap.get_phase_profile HeightMap.phase_profile_pi exHeightMap
    simp [square_height, cexp_pi]
  have hclaim :
      exHeightMap.claimed_phase_profile exHeightOne 0 0 0 = -1 := by
    unfold HeightMap.claimed_phase_profile
    have h1 : ((exHeightMap.toOpticCfg.wave_nos_pi 0 *
          exHeightMap.toOpticCfg.delta_N 0 : ℚ) : ℝ) * exHeightOne 0 0 =
        1 := by
      norm_num [OpticCfg.wave_nos_pi, OpticCfg.delta_N, exHeightMap,
        exHeightOne]
    rw [h1]
    unfold cexp_pi
    rw [show Complex.I * ((Real.pi : ℂ) * (((1 : ℝ)) : ℂ)) =
        (Real.pi : ℂ) * Complex.I by push_cast; ring]
    exact Complex.exp_pi_mul_I
  rw [hcode, hclaim]
  norm_num

/-- C5: in free-form mode with no external height map, `HeightMap.init`
stores a parameter that is the non-negative square root of the height
obtained by converting the mid-wavelength (index 1) ideal Fresnel phase,
reduced modulo `2π`, through `phase_to_height_map`; equivalently its
elementwise square is exactly that Fresnel-derived height. -/
theorem C5_freeform_init (H W : ℕ) (coefs : List (ℕ × ℚ))
    (wl refr : Fin 3 → ℚ) (xx yy : Fin H → Fin W → ℚ) (d : ℚ)
    (hwl : 0 < wl 1) (hn : 1 < refr 1) :
    ∃ hs, (HeightMap.init none coefs wl refr xx yy d).params =
        HeightMapParams.freeForm hs ∧
      ∀ i j, 0 ≤ hs i j ∧
        hs i j ^ 2 =
          ((OpticCfg.fresnel_init_height ⟨wl, refr, xx, yy, d⟩ 1 i j : ℚ) :
            ℝ) := by
  refine ⟨_, rfl, fun i j => ⟨Real.sqrt_nonneg _, ?_⟩⟩
  exact Real.sq_sqrt
    (by exact_mod_cast
      fresnel_init_height_nonneg ⟨wl, refr, xx, yy, d⟩ 1 hwl hn i j)

/-- Witness for C5 at a concrete input: unit wavelengths, refractive index
`3/2`, a 1-by-1 grid. -/
theorem C5_freeform_init_witness :
    (0 < wl1 1 ∧ 1 < refr32 1) ∧
      ∃ hs, (HeightMap.init none [] wl1 refr32
            (fun (_ : Fin 1) (_ : Fin 1) => (1 : ℚ))
            (fun _ _ => 0) 1).params = HeightMapParams.freeForm hs ∧
        ∀ i j, 0 ≤ hs i j ∧
          hs i j ^ 2 =
            ((OpticCfg.fresnel_init_height
                ⟨wl1, refr32, fun (_ : Fin 1) (_ : Fin 1) => (1 : ℚ),
                  fun _ _ => 0, 1⟩ 1 i j : ℚ) : ℝ) :=
  ⟨⟨by norm_num [wl1], by norm_num [refr32]⟩,
    C5_freeform_init 1 1 [] wl1 refr32 (fun _ _ => 1) (fun _ _ => 0) 1
      (by norm_num [wl1]) (by norm_num [refr32])⟩

/-- C2: for every collimator state and supplied phase profile whose
pre-normalization PSF has a nonzero total, `get_psf` returns a tensor that
sums to 1 over the whole `(1, 3, P+1, P+1)` tensor, and every entry is the
pre-normalization value divided by that one shared scalar sum (a single
normalization across channels, not per-channel). -/
theorem C2_psf_normalized (P f : ℕ) (m : RGBCollimator P f)
    (pp : Option (Fin 3 → Fin (waveRes P f) → Fin (waveRes P f) → ℂ))
    (h : m.psf_sum pp ≠ 0) :
    (∑ c : Fin 3, ∑ i : Fin (P + 1), ∑ j : Fin (P + 1),
        m.get_psf pp c i j) = 1 ∧
      ∀ c i j, m.get_psf pp c i j =
        m.psf_prenorm pp c i j / m.psf_sum pp := by
  constructor
  · unfold RGBCollimator.get_psf
    simp only [← Finset.sum_div]
    exact div_self h
  · intro c i j
    rfl

/-- Witness for C2 at a concrete input: the 1-by-1 collimator with
identity propagator and an all-ones phase profile; the pre-normalized PSF
sums to 3. -/
theorem C2_psf_normalized_witness :
    exCollimator.psf_sum (some onesProfile) ≠ 0 ∧
      ((∑ c : Fin 3, ∑ i : Fin 1, ∑ j : Fin 1,
          exCollimator.get_psf (some onesProfile) c i j) = 1 ∧
        ∀ c i j, exCollimator.get_psf (some onesProfile) c i j =
          exCollimator.psf_prenorm (some onesProfile) c i j /
            exCollimator.psf_sum (some onesProfile)) := by
  have hsum : exCollimator.psf_sum (some onesProfile) = 3 := by
    simp [RGBCollimator.psf_sum, RGBCollimator.psf_prenorm, exCollimator,
      onesProfile, area_downsampling]
  exact ⟨by rw [hsum]; norm_num,
    C2_psf_normalized 0 0 exCollimator (some onesProfile)
      (by rw [hsum]; norm_num)⟩

/-- C3: for a freshly built free-form `RGBCollimator` (no Zernike basis),
`build_baseline_profile` — the composition of the ideal mid-wavelength
Fresnel phase, its reduction modulo `2π`, `phase_to_height_map`, and
`get_phase_profile` — returns a profile whose mid-wavelength channel
equals `exp(i · fresnel_phase)` for the original ideal Fresnel phase,
i.e. the phase is reproduced modulo `2π` exactly. -/
theorem C3_baseline_roundtrip (P f : ℕ) (coefs : List (ℕ × ℚ))
    (d si : ℚ) (refr wl : Fin 3 → ℚ)
    (xx yy : Fin (waveRes P f) → Fin (waveRes P f) → ℚ)
    (prop : (Fin 3 → Fin (waveRes P f) → Fin (waveRes P f) → ℂ) →
      (Fin 3 → Fin (waveRes P f) → Fin (waveRes P f) → ℂ))
    (hwl : 0 < wl 1) (hn : 1 < refr 1) :
    ∃ profile,
      build_baseline_profile
          (RGBCollimator.build P f none coefs d refr wl si xx yy prop) =
        some profile ∧
      ∀ i j, profile 1 i j =
        cexp_pi
          ((OpticCfg.fresnel_phase_pi ⟨wl, refr, xx, yy, d⟩ 1 i j : ℚ) :
            ℝ) := by
  refine ⟨_, rfl, fun i j => ?_⟩
  have hparams :
      (RGBCollimator.build P f none coefs d refr wl si xx yy
          prop).height_map.params =
        HeightMapParams.freeForm
          (OpticCfg.fresnel_phase_init ⟨wl, refr, xx, yy, d⟩ 1) := rfl
  show cexp_pi
      ((RGBCollimator.build P f none coefs d refr wl si xx yy
          prop).height_map.phase_profile_pi _ 1 i j) = _
  rw [phase_profile_pi_freeForm _ _ hparams]
  show cexp_pi
      (((OpticCfg.wave_nos_pi ⟨wl, refr, xx, yy, d⟩ 1 *
          OpticCfg.delta_N ⟨wl, refr, xx, yy, d⟩ 1 : ℚ) : ℝ) *
        square_height
          (OpticCfg.fresnel_phase_init ⟨wl, refr, xx, yy, d⟩ 1) i j) = _
  have hsq :
      square_height (OpticCfg.fresnel_phase_init ⟨wl, refr, xx, yy, d⟩ 1) i
          j =
        ((OpticCfg.fresnel_init_height ⟨wl, refr, xx, yy, d⟩ 1 i j : ℚ) :
          ℝ) := by
    unfold square_height OpticCfg.fresnel_phase_init
    exact Real.sq_sqrt
      (by exact_mod_cast
        fresnel_init_height_nonneg ⟨wl, refr, xx, yy, d⟩ 1 hwl hn i j)
  rw [hsq]
  rw [show (((OpticCfg.wave_nos_pi ⟨wl, refr, xx, yy, d⟩ 1 *
        OpticCfg.delta_N ⟨wl, refr, xx, yy, d⟩ 1 : ℚ) : ℝ) *
        ((OpticCfg.fresnel_init_height ⟨wl, refr, xx, yy, d⟩ 1 i j : ℚ) :
          ℝ)) =
      ((OpticCfg.wave_nos_pi ⟨wl, refr, xx, yy, d⟩ 1 *
          OpticCfg.delta_N ⟨wl, refr, xx, yy, d⟩ 1 *
          OpticCfg.fresnel_init_height ⟨wl, refr, xx, yy, d⟩ 1 i j : ℚ) :
        ℝ) by push_cast; ring]
  have hcancel :
      OpticCfg.wave_nos_pi ⟨wl, refr, xx, yy, d⟩ 1 *
          OpticCfg.delta_N ⟨wl, refr, xx, yy, d⟩ 1 *
          OpticCfg.fresnel_init_height ⟨wl, refr, xx, yy, d⟩ 1 i j =
        qmod2 (OpticCfg.fresnel_phase_pi ⟨wl, refr, xx, yy, d⟩ 1 i j) := by
    unfold OpticCfg.fresnel_init_height
    rw [wave_mul_height ⟨wl, refr, xx, yy, d⟩ 1 (ne_of_gt hwl)
      (by unfold OpticCfg.delta_N; simp only []; intro hc; nlinarith)
      (OpticCfg.fresnel_phase_mod ⟨wl, refr, xx, yy, d⟩ 1) i j]
    unfold OpticCfg.fresnel_phase_mod
    exact qmod2_idem _
  rw [hcancel, cexp_pi_qmod2]

/-- Witness for C3 at a concrete input: 1-by-1 wavefront, unit wavelengths,
refractive index `3/2`, zero coordinate grids, identity propagator. -/
theorem C3_baseline_roundtrip_witness :
    (0 < wl1 1 ∧ 1 < refr32 1) ∧
      ∃ profile,
        build_baseline_profile
            (RGBCollimator.build 0 0 none [] 1 refr32 wl1 1 zeroGrid1
              zeroGrid1 id) =
          some profile ∧
        ∀ i j, profile 1 i j =
          cexp_pi
            ((OpticCfg.fresnel_phase_pi
                ⟨wl1, refr32, zeroGrid1, zeroGrid1, 1⟩ 1 i j : ℚ) : ℝ) :=
  ⟨⟨by norm_num [wl1], by norm_num [refr32]⟩,
    C3_baseline_roundtrip 0 0 [] 1 1 refr32 wl1 zeroGrid1 zeroGrid1 id
      (by norm_num [wl1]) (by norm_num [refr32])⟩

/-- C7 (counterexample): the claim that the aperture is `1` wherever the
radius is strictly below the maximum grid radius fails on the concrete
2-by-2 grid `xg`/`yg`: at the sample `(1, 0)` (coordinates `x = 0`,
`y = 1`) the radius `1` is below the maximum grid radius `√2`, so the
claimed mask is `1`, but the source compares against `xx.max() = 1` and
yields `0`. -/
theorem C7_aperture_counterexample :
    circular_aperture xg yg 1 0 = 0 ∧ claimed_aperture xg yg 1 0 = 1 := by
  have hx : xg 1 0 = 0 := rfl
  have hy : yg 1 0 = 1 := rfl
  have hmax : maxEntry xg = 1 := by decide
  have hmaxr : maxEntry (fun i j => xg i j ^ 2 + yg i j ^ 2) = 2 := by
    have he : entries (fun i j => xg i j ^ 2 + yg i j ^ 2) = [0, 1, 1, 2] := by
      show [xg 0 0 ^ 2 + yg 0 0 ^ 2, xg 0 1 ^ 2 + yg 0 1 ^ 2,
          xg 1 0 ^ 2 + yg 1 0 ^ 2, xg 1 1 ^ 2 + yg 1 1 ^ 2] = [0, 1, 1, 2]
      norm_num [xg, yg]
    unfold maxEntry
    rw [he]
    rfl
  constructor
  · unfold circular_aperture
    rw [hx, hy, hmax]
    rw [if_neg]
    push_cast
    rw [show (0 : ℝ) ^ 2 + 1 ^ 2 = 1 by norm_num, Real.sqrt_one]
    exact lt_irrefl 1
  · unfold claimed_aperture
    rw [hx, hy, hmaxr]
    rw [if_pos]
    apply Real.sqrt_lt_sqrt
    · positivity
    · push_cast
      norm_num

/-- C7 (amended): the aperture computed by `_get_circular_aperture` is `1`
at exactly the samples whose squared radius `x² + y²` is below the square
of the (positive) maximum x-coordinate `xx.max()`, and `0` elsewhere —
the threshold is the largest x-coordinate of the grid, not the maximum
grid radius. -/
theorem C7_aperture_amended (H W : ℕ) (xx yy : Fin H → Fin W → ℚ)
    (i : Fin H) (j : Fin W) :
    circular_aperture xx yy i j =
      if xx i j ^ 2 + yy i j ^ 2 < maxEntry xx ^ 2 ∧ 0 < maxEntry xx
      then 1 else 0 := by
  unfold circular_aperture
  rcases le_or_lt (maxEntry xx) 0 with hm | hm
  · rw [if_neg, if_neg]
    · rintro ⟨-, h2⟩
      exact absurd h2 (not_lt.mpr hm)
    · intro hlt
      have hge : (0 : ℝ) ≤
          Real.sqrt (((xx i j : ℚ) : ℝ) ^ 2 + ((yy i j : ℚ) : ℝ) ^ 2) :=
        Real.sqrt_nonneg _
      have hm' : ((maxEntry xx : ℚ) : ℝ) ≤ 0 := by exact_mod_cast hm
      linarith
  · have hm' : (0 : ℝ) < ((maxEntry xx : ℚ) : ℝ) := by exact_mod_cast hm
    simp only [Real.sqrt_lt' hm']
    have hiff :
        (((xx i j : ℚ) : ℝ) ^ 2 + ((yy i j : ℚ) : ℝ) ^ 2 <
            ((maxEntry xx : ℚ) : ℝ) ^ 2) ↔
          (xx i j ^ 2 + yy i j ^ 2 < maxEntry xx ^ 2 ∧ 0 < maxEntry xx) := by
      constructor
      · intro hlt
        refine ⟨?_, hm⟩
        exact_mod_cast hlt
      · rintro ⟨hlt, -⟩
        exact_mod_cast hlt
    simp only [hiff]

/-- C8: for every iteration count and endpoint noise levels with
`0 < end < start` (and a positive penalty scale), the `rhos` and `sigmas`
schedules produced by `log_descent` each have length `max_iter` and are
strictly decreasing across the iteration index. -/
theorem sigma_step_lt (s e : ℝ) (n : ℕ) (h0 : 0 < e) (h1 : e < s)
    (a b : ℕ) (hb : b < n) (hab : a < b) :
    Real.exp (Real.log s +
        (b : ℝ) * ((Real.log e - Real.log s) / ((n : ℝ) - 1))) <
      Real.exp (Real.log s +
        (a : ℝ) * ((Real.log e - Real.log s) / ((n : ℝ) - 1))) := by
  have hn2 : 2 ≤ n := by omega
  have hd : (Real.log e - Real.log s) / ((n : ℝ) - 1) < 0 := by
    apply div_neg_of_neg_of_pos
    · have := Real.log_lt_log h0 h1
      linarith
    · have h2 : (2 : ℝ) ≤ (n : ℝ) := by exact_mod_cast hn2
      linarith
  rw [Real.exp_lt_exp]
  have hmul := mul_lt_mul_of_neg_right
    (show (a : ℝ) < (b : ℝ) by exact_mod_cast hab) hd
  linarith

theorem C8_log_descent_schedule (startv endv lam : ℝ) (n : ℕ)
    (h0 : 0 < endv) (h1 : endv < startv) (hlam : 0 < lam) :
    ((log_descent startv endv n lam).1.length = n ∧
      (log_descent startv endv n lam).2.length = n) ∧
    (log_descent startv endv n lam).2.Pairwise (· > ·) ∧
    (log_descent startv endv n lam).1.Pairwise (· > ·) := by
  refine ⟨⟨by simp [log_descent], by simp [log_descent]⟩, ?_, ?_⟩
  · rw [List.pairwise_iff_getElem]
    intro a b ha hb hab
    simp only [log_descent, List.length_map, List.length_range] at ha hb
    simp only [log_descent, List.getElem_map, List.getElem_range]
    exact sigma_step_lt startv endv n h0 h1 a b hb hab
  · rw [List.pairwise_iff_getElem]
    intro a b ha hb hab
    simp only [log_descent, List.length_map, List.length_range] at ha hb
    simp only [log_descent, List.getElem_map, List.getElem_range]
    have hlt := sigma_step_lt startv endv n h0 h1 a b hb hab
    have hpos := Real.exp_pos (Real.log startv +
      (b : ℝ) * ((Real.log endv - Real.log startv) / ((n : ℝ) - 1)))
    have hsq : Real.exp (Real.log startv +
          (b : ℝ) * ((Real.log endv - Real.log startv) / ((n : ℝ) - 1))) ^ 2 <
        Real.exp (Real.log startv +
          (a : ℝ) * ((Real.log endv - Real.log startv) / ((n : ℝ) - 1))) ^ 2 := by
      nlinarith
    exact mul_lt_mul_of_pos_left hsq hlam

/-- Witness for C8 at a concrete input: the endpoints `49` and `7.65`
and the 10 iterations used by `e2e_optics.py`. -/
theorem C8_log_descent_schedule_witness :
    ((0 : ℝ) < 153 / 20 ∧ (153 / 20 : ℝ) < 49 ∧ (0 : ℝ) < 23 / 100) ∧
      (((log_descent 49 (153 / 20) 10 (23 / 100)).1.length = 10 ∧
        (log_descent 49 (153 / 20) 10 (23 / 100)).2.length = 10) ∧
      (log_descent 49 (153 / 20) 10 (23 / 100)).2.Pairwise (· > ·) ∧
      (log_descent 49 (153 / 20) 10 (23 / 100)).1.Pairwise (· > ·)) :=
  ⟨⟨by norm_num, by norm_num, by norm_num⟩,
    C8_log_descent_schedule 49 (153 / 20) (23 / 100) 10 (by norm_num)
      (by norm_num) (by norm_num)⟩

end Dprox
